import Mathlib

/-!
Shallow embedding of `simulate_data_loss.py` (repository GHyee/data_backup).

The script drives a PostgreSQL connection through four operations:
fetching primary-key values, copying selected rows into a freshly created
backup table, deleting them from the source, and re-inserting them from the
backup.  We model the database as an association list from table names to
tables.  A table carries a schema (column names plus the constraints/indexes
that `CREATE TABLE (LIKE src INCLUDING ALL)` would copy and a bare `LIKE`
would not) and a list of rows, each row a list of scalar values.

External database failures (network errors, etc.), which in Python surface
as `psycopg2.Error` and are caught by each operation's `except` block, are
modelled by boolean fault oracles: each statement of an operation consults
one boolean saying whether the database raises an error on it.  A `None`
connection is modelled as `Option Unit`; calling `.cursor()` on `None`
raises `AttributeError`, which is *not* caught by `except psycopg2.Error`,
so the operations return `Except PyExc _` with `AttributeError` (and the
`TypeError` raised by `x in None` / `random.sample(None, _)`) escaping.
-/

set_option autoImplicit false

namespace DataBackup

/-- A scalar database value (the script's tables hold ints and text). -/
inductive Value where
  | int : Int → Value
  | text : String → Value
deriving DecidableEq

/-- One table row: the values of its columns, in column order. -/
abbrev Row := List Value

/-- Table structure: column names, plus the constraints/indexes that only
`INCLUDING ALL` would copy to a clone (a bare `LIKE` copies the columns but
not these). -/
structure Schema where
  cols : List String
  indexes : List String
deriving DecidableEq

/-- A table: its structure and its current rows. -/
structure Table where
  schema : Schema
  rows : List Row
deriving DecidableEq

/-- The database: tables of the `public` schema, keyed by name. -/
abbrev DB := List (String × Table)

/-- First table stored under a name (SQL table names are unique in practice). -/
def lookupTable : DB → String → Option Table
  | [], _ => none
  | (n, t) :: rest, m => if m = n then some t else lookupTable rest m

/-- The live table list, as `information_schema.tables` reports it. -/
def tableNames (db : DB) : List String :=
  db.map (fun p => p.1)

/-- Replace the table stored under `n` (no-op when `n` is absent). -/
def updateTable (db : DB) (n : String) (t : Table) : DB :=
  db.map (fun p => if p.1 = n then (n, t) else p)

/-- Value of column number `idx` of a row (`SELECT`ing a column). -/
def keyAt (idx : Nat) (r : Row) : Value :=
  r.getD idx (Value.int 0)

/-- Resolve a column name against a schema's column list. -/
def colIndex (cols : List String) (field : String) : Option Nat :=
  cols.findIdx? (fun c => decide (c = field))

/-- Structure produced by `CREATE TABLE _ (LIKE src)` (when `includingAll`
is false, the code's form) or `CREATE TABLE _ (LIKE src INCLUDING ALL)`
(when true, the spec's form): columns always copied, constraints/indexes
only under `INCLUDING ALL`. -/
def likeSchema (s : Schema) (includingAll : Bool) : Schema :=
  ⟨s.cols, if includingAll then s.indexes else []⟩

/-- Statement `CREATE TABLE newName (LIKE srcName)`: fails if `newName` exists or
`srcName` does not; otherwise appends an empty structural clone. -/
def createLike (db : DB) (newName srcName : String) : Option DB :=
  if newName ∈ tableNames db then none
  else
    match lookupTable db srcName with
    | none => none
    | some s => some (db ++ [(newName, ⟨likeSchema s.schema false, []⟩)])

/-- Statement `INSERT INTO dest SELECT * FROM src WHERE kfield = v`: fails if either
table is missing, the column is missing from `src`, or the column counts of
`src` and `dest` differ; otherwise appends the matching rows of `src` to
`dest`. -/
def insertSelect (db : DB) (dest src kfield : String) (v : Value) : Option DB :=
  match lookupTable db src, lookupTable db dest with
  | some s, some d =>
    match colIndex s.schema.cols kfield with
    | none => none
    | some idx =>
      if s.schema.cols.length = d.schema.cols.length then
        some (updateTable db dest
          ⟨d.schema, d.rows ++ s.rows.filter (fun r => decide (keyAt idx r = v))⟩)
      else none
  | _, _ => none

/-- Statement `DELETE FROM tname WHERE kfield = v`. -/
def deleteWhere (db : DB) (tname kfield : String) (v : Value) : Option DB :=
  match lookupTable db tname with
  | none => none
  | some t =>
    match colIndex t.schema.cols kfield with
    | none => none
    | some idx =>
      some (updateTable db tname
        ⟨t.schema, t.rows.filter (fun r => decide (¬ keyAt idx r = v))⟩)

/-- The `for primary_key_value in primary_key_values:` insert loop shared by
`backup_records` and `restore_records`; `fs` is the external-fault oracle,
one boolean per statement.  Returns `none` when the transaction must be
rolled back. -/
def runInserts (dest src kfield : String) : DB → List Value → List Bool → Option DB
  | db, [], _ => some db
  | db, v :: vs, fs =>
    if fs.headD false then none
    else
      match insertSelect db dest src kfield v with
      | none => none
      | some db2 => runInserts dest src kfield db2 vs fs.tail

/-- The delete loop of `remove_records`. -/
def runDeletes (tname kfield : String) : DB → List Value → List Bool → Option DB
  | db, [], _ => some db
  | db, v :: vs, fs =>
    if fs.headD false then none
    else
      match deleteWhere db tname kfield v with
      | none => none
      | some db2 => runDeletes tname kfield db2 vs fs.tail

/-- The `while backup_table_name in table_names:` loop of `backup_records`:
each iteration rebinds `backup_table_name` to
`f"{backup_table_name}_v{version}"` and increments `version`.  `fuel` bounds
the iterations; `resolveBackupName` supplies enough fuel for the loop to run
to completion. -/
def resolveBackupNameAux (names : List String) (cand : String) (version fuel : Nat) : String :=
  match fuel with
  | 0 => cand
  | Nat.succ fuel2 =>
    if cand ∈ names then
      resolveBackupNameAux names (cand ++ "_v" ++ toString version) (version + 1) fuel2
    else cand

/-- The backup-table name actually used: the collision loop started with
`version = 1`, with enough fuel to terminate exactly as the Python loop
does. -/
def resolveBackupName (names : List String) (cand : String) : String :=
  resolveBackupNameAux names cand 1 (names.length + 1)

/-- Python exceptions that escape the operations (`except psycopg2.Error`
catches none of these). -/
inductive PyExc where
  | attributeError : PyExc
  | typeError : PyExc
  | valueError : PyExc
deriving DecidableEq

/-- Model of `connect_to_database`: on success returns the live connection; on a
`psycopg2.Error` (`fault = true`) prints a diagnostic (second component) and
falls off the function, returning `None`. -/
def connect_to_database (fault : Bool) : Option Unit × Bool :=
  if fault then (none, true) else (some (), false)

/-- Model of `get_primary_key_values`: `SELECT primary_key_field FROM table_name`.
Returns the selected column, the (unchanged) database, and whether the
`except` branch printed a diagnostic; a `None` connection raises
`AttributeError` at `connection.cursor()`. -/
def get_primary_key_values (conn : Option Unit) (fault : Bool) (db : DB)
    (table_name primary_key_field : String) :
    Except PyExc (Option (List Value) × DB × Bool) :=
  match conn with
  | none => .error .attributeError
  | some _ =>
    if fault then .ok (none, db, true)
    else
      match lookupTable db table_name with
      | none => .ok (none, db, true)
      | some t =>
        match colIndex t.schema.cols primary_key_field with
        | none => .ok (none, db, true)
        | some idx => .ok (some (t.rows.map (keyAt idx)), db, false)

/-- Model of `get_table_names`: lists the tables of the `public` schema. -/
def get_table_names (conn : Option Unit) (fault : Bool) (db : DB) :
    Except PyExc (Option (List String) × DB × Bool) :=
  match conn with
  | none => .error .attributeError
  | some _ =>
    if fault then .ok (none, db, true) else .ok (some (tableNames db), db, false)

/-- The transaction body of `backup_records`: `CREATE TABLE … (LIKE …)`
followed by the per-row inserts; `none` means some statement failed and the
whole transaction is rolled back. -/
def txBackup (fCreate : Bool) (fIns : List Bool) (db : DB)
    (tname bname kfield : String) (keys : List Value) : Option DB :=
  if fCreate then none
  else
    match createLike db bname tname with
    | none => none
    | some db1 => runInserts bname tname kfield db1 keys fIns

/-- Model of `backup_records`: resolves name collisions against `get_table_names`,
creates the backup table, copies the selected rows, commits once after the
loop; on any `psycopg2.Error` rolls the whole transaction back (returning
the original state, diagnostic flag `true`).  If `get_table_names` failed
(returned `None`), `backup_table_name in None` raises an uncaught
`TypeError`. -/
def backup_records (conn : Option Unit) (fNames fCreate : Bool) (fIns : List Bool)
    (db : DB) (table_name backup_table_name primary_key_field : String)
    (primary_key_values : List Value) : Except PyExc (DB × Bool) :=
  match conn with
  | none => .error .attributeError
  | some _ =>
    match get_table_names (some ()) fNames db with
    | .error e => .error e
    | .ok (none, _, _) => .error .typeError
    | .ok (some names, _, _) =>
      match txBackup fCreate fIns db table_name
          (resolveBackupName names backup_table_name) primary_key_field
          primary_key_values with
      | some db2 => .ok (db2, false)
      | none => .ok (db, true)

/-- Model of `remove_records`: deletes each sampled key's rows in one transaction;
commits after the loop, rolls back entirely on any failure. -/
def remove_records (conn : Option Unit) (fDel : List Bool) (db : DB)
    (table_name primary_key_field : String) (primary_key_values : List Value) :
    Except PyExc (DB × Bool) :=
  match conn with
  | none => .error .attributeError
  | some _ =>
    match runDeletes table_name primary_key_field db primary_key_values fDel with
    | some db2 => .ok (db2, false)
    | none => .ok (db, true)

/-- Model of `restore_records`: re-inserts each key's rows from the backup table into
the source table, one transaction, same commit/rollback shape. -/
def restore_records (conn : Option Unit) (fIns : List Bool) (db : DB)
    (table_name backup_table_name primary_key_field : String)
    (primary_key_values : List Value) : Except PyExc (DB × Bool) :=
  match conn with
  | none => .error .attributeError
  | some _ =>
    match runInserts table_name backup_table_name primary_key_field db
        primary_key_values fIns with
    | some db2 => .ok (db2, false)
    | none => .ok (db, true)

/-- External-fault oracles for one run of the script, one per database
statement that can raise `psycopg2.Error`. -/
structure Faults where
  connect : Bool
  pkv : Bool
  backupNames : Bool
  backupCreate : Bool
  backupInserts : List Bool
  removeDeletes : List Bool
  restoreInserts : List Bool
deriving DecidableEq

deriving instance DecidableEq for Except

/-- Outcome of the `__main__` block: which migrator operations were invoked,
in order, and either the final database state or the uncaught exception that
aborted the process. -/
structure MainResult where
  invoked : List String
  outcome : Except PyExc DB
deriving DecidableEq

/-- The `__main__` block.  `sampled` stands for the value of
`sorted(random.sample(primary_key_values, 10))` when sampling succeeds;
`random.sample` raises `TypeError` when the population is `None` (a failed
`get_primary_key_values`) and `ValueError` when it holds fewer than 10
values. -/
def mainRun (db : DB) (f : Faults) (sampled : List Value) : MainResult :=
  match get_primary_key_values (connect_to_database f.connect).1 f.pkv db
      "customers" "customer_id" with
  | .error e => ⟨["get_primary_key_values"], .error e⟩
  | .ok (pkv, db1, _) =>
    match pkv with
    | none => ⟨["get_primary_key_values"], .error .typeError⟩
    | some l =>
      if l.length < 10 then ⟨["get_primary_key_values"], .error .valueError⟩
      else
        match backup_records (connect_to_database f.connect).1 f.backupNames
            f.backupCreate f.backupInserts db1 "customers" "customers_backup"
            "customer_id" sampled with
        | .error e => ⟨["get_primary_key_values", "backup_records"], .error e⟩
        | .ok (db2, _) =>
          match remove_records (connect_to_database f.connect).1 f.removeDeletes
              db2 "customers" "customer_id" sampled with
          | .error e =>
            ⟨["get_primary_key_values", "backup_records", "remove_records"], .error e⟩
          | .ok (db3, _) =>
            match restore_records (connect_to_database f.connect).1 f.restoreInserts
                db3 "customers" "customers_backup" "customer_id" sampled with
            | .error e =>
              ⟨["get_primary_key_values", "backup_records", "remove_records",
                "restore_records"], .error e⟩
            | .ok (db4, _) =>
              ⟨["get_primary_key_values", "backup_records", "remove_records",
                "restore_records"], .ok db4⟩

/-- The backup → remove → restore sequence of the `__main__` block with a
fault-free oracle (the "no operation raises a database error" runs), for a
caller-chosen table, backup name, key field and key list.  Returns the final
state together with the three diagnostic flags. -/
def runScenario (db : DB) (tname bname kfield : String) (keys : List Value) :
    Option (DB × Bool × Bool × Bool) :=
  match backup_records (some ()) false false [] db tname bname kfield keys with
  | .error _ => none
  | .ok (db1, e1) =>
    match remove_records (some ()) [] db1 tname kfield keys with
    | .error _ => none
    | .ok (db2, e2) =>
      match restore_records (some ()) [] db2 tname bname kfield keys with
      | .error _ => none
      | .ok (db3, e3) => some (db3, e1, e2, e3)

/-- Rows of table `tname` after a fault-free, diagnostic-free
backup → remove → restore sequence (`none` when some diagnostic fired or
the table vanished). -/
def scenarioRows (db : DB) (tname bname kfield : String) (keys : List Value) :
    Option (List Row) :=
  match runScenario db tname bname kfield keys with
  | some (db3, false, false, false) => (lookupTable db3 tname).map Table.rows
  | _ => none

/-! ### Association-list lemmas -/

theorem lookupTable_cons (a : String) (b : Table) (rest : DB) (m : String) :
    lookupTable ((a, b) :: rest) m = if m = a then some b else lookupTable rest m := rfl

theorem updateTable_cons (a : String) (b : Table) (rest : DB) (n : String) (t : Table) :
    updateTable ((a, b) :: rest) n t = (if a = n then (n, t) else (a, b)) :: updateTable rest n t := rfl

theorem tableNames_cons (a : String) (b : Table) (rest : DB) :
    tableNames ((a, b) :: rest) = a :: tableNames rest := rfl

theorem lookupTable_mem {db : DB} {n : String} {t : Table}
    (h : lookupTable db n = some t) : n ∈ tableNames db := by
  induction db with
  | nil => simp [lookupTable] at h
  | cons p rest ih =>
    rw [lookupTable] at h
    by_cases hn : n = p.1
    · simp [tableNames, hn]
    · rw [if_neg hn] at h
      simp [tableNames] at ih ⊢
      exact Or.inr (ih h)

theorem lookupTable_append_left {db1 : DB} (db2 : DB) {n : String} {t : Table}
    (h : lookupTable db1 n = some t) : lookupTable (db1 ++ db2) n = some t := by
  induction db1 with
  | nil => simp [lookupTable] at h
  | cons p rest ih =>
    rw [lookupTable] at h
    rw [List.cons_append, lookupTable]
    by_cases hn : n = p.1
    · rwa [if_pos hn] at h ⊢
    · rw [if_neg hn] at h ⊢
      exact ih h

theorem lookupTable_append_right {db1 : DB} (db2 : DB) {n : String}
    (h : n ∉ tableNames db1) : lookupTable (db1 ++ db2) n = lookupTable db2 n := by
  induction db1 with
  | nil => simp
  | cons p rest ih =>
    simp [tableNames] at h
    rw [List.cons_append, lookupTable, if_neg h.1]
    exact ih (by simpa [tableNames] using h.2)

theorem lookupTable_update_self {db : DB} {n : String} (t : Table)
    (h : n ∈ tableNames db) : lookupTable (updateTable db n t) n = some t := by
  induction db with
  | nil => simp [tableNames] at h
  | cons p rest ih =>
    obtain ⟨a, b⟩ := p
    rw [updateTable_cons]
    by_cases hn : a = n
    · rw [if_pos hn, lookupTable_cons, if_pos rfl]
    · rw [if_neg hn, lookupTable_cons, if_neg (fun he => hn he.symm)]
      apply ih
      rw [tableNames_cons] at h
      rcases List.mem_cons.mp h with h | h
      · exact absurd h.symm hn
      · exact h

theorem lookupTable_update_other {db : DB} {n m : String} (t : Table)
    (h : m ≠ n) : lookupTable (updateTable db n t) m = lookupTable db m := by
  induction db with
  | nil => rfl
  | cons p rest ih =>
    obtain ⟨a, b⟩ := p
    rw [updateTable_cons]
    by_cases hn : a = n
    · rw [if_pos hn, lookupTable_cons, lookupTable_cons,
        if_neg h, if_neg (fun hm => h (hm.trans hn)), ih]
    · rw [if_neg hn, lookupTable_cons, lookupTable_cons, ih]

theorem updateTable_not_mem {db : DB} {n : String} (t : Table)
    (h : n ∉ tableNames db) : updateTable db n t = db := by
  induction db with
  | nil => rfl
  | cons p rest ih =>
    obtain ⟨a, b⟩ := p
    rw [tableNames_cons] at h
    rw [updateTable_cons, if_neg (fun he : a = n => h (by rw [← he]; exact List.mem_cons_self a (tableNames rest))),
      ih (fun hm => h (List.mem_cons_of_mem a hm))]

theorem updateTable_append (db1 db2 : DB) (n : String) (t : Table) :
    updateTable (db1 ++ db2) n t = updateTable db1 n t ++ updateTable db2 n t :=
  List.map_append _ _ _

theorem updateTable_updateTable (db : DB) (n : String) (a b : Table) :
    updateTable (updateTable db n a) n b = updateTable db n b := by
  induction db with
  | nil => rfl
  | cons p rest ih =>
    by_cases hn : p.1 = n <;>
      simp only [updateTable, List.map_cons, if_pos, if_neg, hn, ite_true] at ih ⊢ <;>
      simp [hn, ih]

theorem tableNames_update (db : DB) (n : String) (t : Table) :
    tableNames (updateTable db n t) = tableNames db := by
  induction db with
  | nil => rfl
  | cons p rest ih =>
    by_cases hn : p.1 = n <;>
      simp only [updateTable, tableNames, List.map_cons] at ih ⊢ <;>
      simp [hn, ih]

theorem updateTable_self_eq {db : DB} {n : String} {t : Table}
    (hnd : (tableNames db).Nodup) (h : lookupTable db n = some t) :
    updateTable db n t = db := by
  induction db with
  | nil => rfl
  | cons p rest ih =>
    obtain ⟨a, b⟩ := p
    rw [lookupTable_cons] at h
    rw [tableNames_cons, List.nodup_cons] at hnd
    rw [updateTable_cons]
    by_cases hn : a = n
    · rw [if_pos hn]
      rw [if_pos hn.symm] at h
      have hb : b = t := Option.some.inj h
      rw [updateTable_not_mem t (hn ▸ hnd.1), hn, hb]
    · rw [if_neg hn]
      rw [if_neg (fun he => hn he.symm)] at h
      rw [ih hnd.2 h]

theorem tableNames_append (db1 db2 : DB) :
    tableNames (db1 ++ db2) = tableNames db1 ++ tableNames db2 :=
  List.map_append _ _ _

/-! ### Statement-loop lemmas -/

theorem runInserts_nil (dest src kfield : String) (db : DB) (fs : List Bool) :
    runInserts dest src kfield db [] fs = some db := rfl

theorem runInserts_cons_nofault (dest src kfield : String) (db : DB) (v : Value)
    (vs : List Value) :
    runInserts dest src kfield db (v :: vs) [] =
      match insertSelect db dest src kfield v with
      | none => none
      | some db2 => runInserts dest src kfield db2 vs [] := rfl

theorem runInserts_cons_false (dest src kfield : String) (db : DB) (v : Value)
    (vs : List Value) (fs : List Bool) :
    runInserts dest src kfield db (v :: vs) (false :: fs) =
      match insertSelect db dest src kfield v with
      | none => none
      | some db2 => runInserts dest src kfield db2 vs fs := rfl

theorem runDeletes_nil (tname kfield : String) (db : DB) (fs : List Bool) :
    runDeletes tname kfield db [] fs = some db := rfl

theorem runDeletes_cons_nofault (tname kfield : String) (db : DB) (v : Value)
    (vs : List Value) :
    runDeletes tname kfield db (v :: vs) [] =
      match deleteWhere db tname kfield v with
      | none => none
      | some db2 => runDeletes tname kfield db2 vs [] := rfl

theorem insertSelect_shape {db db2 : DB} {dest src kfield : String} {v : Value}
    (h : insertSelect db dest src kfield v = some db2) :
    ∃ tb, db2 = updateTable db dest tb := by
  unfold insertSelect at h
  split at h
  · split at h
    · exact absurd h (by simp)
    · split at h
      · exact ⟨_, (Option.some.inj h).symm⟩
      · exact absurd h (by simp)
  · exact absurd h (by simp)

theorem deleteWhere_shape {db db2 : DB} {tname kfield : String} {v : Value}
    (h : deleteWhere db tname kfield v = some db2) :
    ∃ tb, db2 = updateTable db tname tb := by
  unfold deleteWhere at h
  split at h
  · exact absurd h (by simp)
  · split at h
    · exact absurd h (by simp)
    · exact ⟨_, (Option.some.inj h).symm⟩

theorem insertSelect_frame {db db2 : DB} {dest src kfield : String} {v : Value} {m : String}
    (h : insertSelect db dest src kfield v = some db2) (hm : m ≠ dest) :
    lookupTable db2 m = lookupTable db m := by
  obtain ⟨tb, rfl⟩ := insertSelect_shape h
  exact lookupTable_update_other tb hm

theorem deleteWhere_frame {db db2 : DB} {tname kfield : String} {v : Value} {m : String}
    (h : deleteWhere db tname kfield v = some db2) (hm : m ≠ tname) :
    lookupTable db2 m = lookupTable db m := by
  obtain ⟨tb, rfl⟩ := deleteWhere_shape h
  exact lookupTable_update_other tb hm

theorem runInserts_frame {dest src kfield : String} {vs : List Value} {fs : List Bool}
    {db db2 : DB} (h : runInserts dest src kfield db vs fs = some db2) {m : String}
    (hm : m ≠ dest) : lookupTable db2 m = lookupTable db m := by
  induction vs generalizing db fs with
  | nil =>
    simp only [runInserts_nil] at h
    cases Option.some.inj h
    rfl
  | cons v vs ih =>
    simp only [runInserts] at h
    split at h
    · exact absurd h (by simp)
    · split at h
      · exact absurd h (by simp)
      · next db3 hins => exact (ih h).trans (insertSelect_frame hins hm)

theorem runDeletes_frame {tname kfield : String} {vs : List Value} {fs : List Bool}
    {db db2 : DB} (h : runDeletes tname kfield db vs fs = some db2) {m : String}
    (hm : m ≠ tname) : lookupTable db2 m = lookupTable db m := by
  induction vs generalizing db fs with
  | nil =>
    simp only [runDeletes_nil] at h
    cases Option.some.inj h
    rfl
  | cons v vs ih =>
    simp only [runDeletes] at h
    split at h
    · exact absurd h (by simp)
    · split at h
      · exact absurd h (by simp)
      · next db3 hdel => exact (ih h).trans (deleteWhere_frame hdel hm)

theorem runInserts_fault {dest src kfield : String} {db : DB} {vs : List Value}
    {fs : List Bool} (h : ∃ i, i < vs.length ∧ fs.getD i false = true) :
    runInserts dest src kfield db vs fs = none := by
  induction vs generalizing db fs with
  | nil =>
    obtain ⟨i, hi, _⟩ := h
    exact absurd hi (Nat.not_lt_zero i)
  | cons v vs ih =>
    obtain ⟨i, hi, hf⟩ := h
    cases fs with
    | nil => simp [List.getD] at hf
    | cons f fs2 =>
      cases i with
      | zero =>
        have hf0 : f = true := by simpa using hf
        subst hf0
        rfl
      | succ j =>
        have hf2 : fs2.getD j false = true := by simpa [List.getD_cons_succ] using hf
        cases f with
        | true => rfl
        | false =>
          rw [runInserts_cons_false]
          cases hins : insertSelect db dest src kfield v with
          | none => rfl
          | some db3 =>
            show runInserts dest src kfield db3 vs fs2 = none
            exact ih ⟨j, by simpa using hi, hf2⟩

theorem runInserts_ok {db : DB} {dest src kfield : String} {s d : Table} {idx : Nat}
    (hnd : (tableNames db).Nodup)
    (hne : dest ≠ src)
    (hs : lookupTable db src = some s)
    (hd : lookupTable db dest = some d)
    (hidx : colIndex s.schema.cols kfield = some idx)
    (hlen : s.schema.cols.length = d.schema.cols.length)
    (vs : List Value) :
    runInserts dest src kfield db vs [] =
      some (updateTable db dest
        ⟨d.schema, d.rows ++ vs.flatMap
          (fun v => s.rows.filter (fun r => decide (keyAt idx r = v)))⟩) := by
  induction vs generalizing db d with
  | nil =>
    rw [runInserts_nil, List.flatMap_nil, List.append_nil,
      show (⟨d.schema, d.rows⟩ : Table) = d from rfl, updateTable_self_eq hnd hd]
  | cons v vs ih =>
    have hins : insertSelect db dest src kfield v =
        some (updateTable db dest
          ⟨d.schema, d.rows ++ s.rows.filter (fun r => decide (keyAt idx r = v))⟩) := by
      simp only [insertSelect, hs, hd, hidx]
      rw [if_pos hlen]
    rw [runInserts_cons_nofault, hins]
    show runInserts dest src kfield _ vs [] = _
    rw [@ih (updateTable db dest
        ⟨d.schema, d.rows ++ s.rows.filter (fun r => decide (keyAt idx r = v))⟩)
      ⟨d.schema, d.rows ++ s.rows.filter (fun r => decide (keyAt idx r = v))⟩
      (by rw [tableNames_update]; exact hnd)
      ((lookupTable_update_other _ (Ne.symm hne)).trans hs)
      (lookupTable_update_self _ (lookupTable_mem hd)) hlen,
      updateTable_updateTable, List.flatMap_cons, List.append_assoc]

theorem runDeletes_ok {db : DB} {tname kfield : String} {t : Table} {idx : Nat}
    (hnd : (tableNames db).Nodup)
    (ht : lookupTable db tname = some t)
    (hidx : colIndex t.schema.cols kfield = some idx)
    (vs : List Value) :
    runDeletes tname kfield db vs [] =
      some (updateTable db tname
        ⟨t.schema, t.rows.filter (fun r => decide (¬ keyAt idx r ∈ vs))⟩) := by
  induction vs generalizing db t with
  | nil =>
    rw [runDeletes_nil,
      show t.rows.filter (fun r => decide (¬ keyAt idx r ∈ ([] : List Value))) = t.rows by
        simp,
      show (⟨t.schema, t.rows⟩ : Table) = t from rfl, updateTable_self_eq hnd ht]
  | cons v vs ih =>
    have hdel : deleteWhere db tname kfield v =
        some (updateTable db tname
          ⟨t.schema, t.rows.filter (fun r => decide (¬ keyAt idx r = v))⟩) := by
      simp only [deleteWhere, ht, hidx]
    rw [runDeletes_cons_nofault, hdel]
    show runDeletes tname kfield _ vs [] = _
    rw [@ih (updateTable db tname
        ⟨t.schema, t.rows.filter (fun r => decide (¬ keyAt idx r = v))⟩)
      ⟨t.schema, t.rows.filter (fun r => decide (¬ keyAt idx r = v))⟩
      (by rw [tableNames_update]; exact hnd)
      (lookupTable_update_self _ (lookupTable_mem ht)) hidx,
      updateTable_updateTable, List.filter_filter]
    rw [show List.filter (fun a => decide (keyAt idx a ∉ vs) && decide (¬ keyAt idx a = v)) t.rows
        = List.filter (fun r => decide (¬ keyAt idx r ∈ v :: vs)) t.rows from
      List.filter_congr (fun x _ => by simp [List.mem_cons, not_or, Bool.and_comm])]

/-! ### Backup-name resolution lemmas -/

theorem resolveBackupNameAux_succ (names : List String) (cand : String) (version fuel : Nat) :
    resolveBackupNameAux names cand version (fuel + 1) =
      if cand ∈ names then
        resolveBackupNameAux names (cand ++ "_v" ++ toString version) (version + 1) fuel
      else cand := rfl

theorem countP_lt_of_mem {α : Type} {l : List α} {p q : α → Bool} {a : α}
    (ha : a ∈ l) (hqa : q a = true) (hpa : p a = false)
    (hpq : ∀ x, p x = true → q x = true) :
    l.countP p < l.countP q := by
  induction l with
  | nil => cases ha
  | cons b l2 ih =>
    have hmono : l2.countP p ≤ l2.countP q :=
      List.countP_mono_left (fun x _ hx => hpq x hx)
    rcases List.mem_cons.mp ha with hb | hb
    · subst hb
      rw [List.countP_cons, List.countP_cons, hpa, hqa,
        if_neg Bool.false_ne_true, if_pos rfl]
      omega
    · have hih := ih hb
      rw [List.countP_cons, List.countP_cons]
      by_cases hpb : p b = true
      · rw [hpb, hpq b hpb]
        omega
      · rw [Bool.not_eq_true] at hpb
        rw [hpb]
        by_cases hqb : q b = true
        · rw [hqb]
          have e0 : (if false = true then 1 else 0) = 0 := rfl
          have f1 : (if true = true then 1 else 0) = 1 := rfl
          omega
        · rw [Bool.not_eq_true] at hqb
          rw [hqb]
          omega

theorem resolveBackupNameAux_not_mem (names : List String) :
    ∀ (fuel : Nat) (cand : String) (version : Nat),
      names.countP (fun n => decide (cand.length ≤ n.length)) < fuel →
      resolveBackupNameAux names cand version fuel ∉ names := by
  intro fuel
  induction fuel with
  | zero => exact fun cand version h => absurd h (Nat.not_lt_zero _)
  | succ f ih =>
    intro cand version h
    rw [resolveBackupNameAux_succ]
    by_cases hc : cand ∈ names
    · rw [if_pos hc]
      apply ih
      have hlt : cand.length < (cand ++ "_v" ++ toString version).length := by
        rw [String.length_append, String.length_append]
        have h2 : ("_v" : String).length = 2 := rfl
        omega
      have hstrict :
          names.countP (fun n => decide ((cand ++ "_v" ++ toString version).length ≤ n.length))
            < names.countP (fun n => decide (cand.length ≤ n.length)) := by
        apply countP_lt_of_mem hc
        · simp
        · simp only [decide_eq_false_iff_not]
          omega
        · intro x hx
          simp only [decide_eq_true_eq] at hx ⊢
          omega
      omega
    · rw [if_neg hc]
      exact hc

theorem resolveBackupName_not_mem (names : List String) (cand : String) :
    resolveBackupName names cand ∉ names :=
  resolveBackupNameAux_not_mem names (names.length + 1) cand 1
    (Nat.lt_succ_of_le (List.countP_le_length _))

theorem resolveBackupName_of_not_mem {names : List String} {cand : String}
    (h : cand ∉ names) : resolveBackupName names cand = cand := by
  rw [resolveBackupName, resolveBackupNameAux_succ, if_neg h]

theorem two_le_length_of_mem_ne {α : Type} {l : List α} {a b : α}
    (ha : a ∈ l) (hb : b ∈ l) (hab : a ≠ b) : 2 ≤ l.length := by
  cases l with
  | nil => cases ha
  | cons x xs =>
    cases xs with
    | nil =>
      rcases List.mem_cons.mp ha with h1 | h1
      · rcases List.mem_cons.mp hb with h2 | h2
        · exact absurd (h1.trans h2.symm) hab
        · cases h2
      · cases h1
    | cons y ys =>
      simp only [List.length_cons]
      omega

theorem resolveBackupName_collision_once {names : List String} {cand : String}
    (h0 : cand ∈ names) (h1 : cand ++ "_v1" ∉ names) :
    resolveBackupName names cand = cand ++ "_v1" := by
  have hpos : 0 < names.length := List.length_pos_of_mem h0
  obtain ⟨k, hk⟩ : ∃ k, names.length = k + 1 := ⟨names.length - 1, by omega⟩
  rw [resolveBackupName, hk, resolveBackupNameAux_succ, if_pos h0,
    show cand ++ "_v" ++ toString 1 = cand ++ "_v1" from by
      rw [String.append_assoc]; rfl,
    resolveBackupNameAux_succ, if_neg h1]

theorem resolveBackupName_collision_twice {names : List String} {cand : String}
    (h0 : cand ∈ names) (h1 : cand ++ "_v1" ∈ names)
    (h2 : cand ++ "_v1" ++ "_v2" ∉ names) :
    resolveBackupName names cand = cand ++ "_v1" ++ "_v2" := by
  have hne : cand ≠ cand ++ "_v1" := by
    intro he
    have hlen := congrArg String.length he
    rw [String.length_append] at hlen
    have h3 : ("_v1" : String).length = 3 := rfl
    omega
  have h2le : 2 ≤ names.length := two_le_length_of_mem_ne h0 h1 hne
  obtain ⟨k, hk⟩ : ∃ k, names.length = k + 1 + 1 := ⟨names.length - 2, by omega⟩
  rw [resolveBackupName, hk,
    resolveBackupNameAux_succ, if_pos h0,
    show cand ++ "_v" ++ toString 1 = cand ++ "_v1" from by
      rw [String.append_assoc]; rfl,
    resolveBackupNameAux_succ, if_pos h1,
    show cand ++ "_v1" ++ "_v" ++ toString 2 = cand ++ "_v1" ++ "_v2" from by
      rw [String.append_assoc (cand ++ "_v1")]; rfl,
    resolveBackupNameAux_succ, if_neg h2]

/-! ### Operation-level lemmas -/

theorem get_table_names_ok (db : DB) :
    get_table_names (some ()) false db = .ok (some (tableNames db), db, false) := rfl

theorem backup_records_eq_tx (fCreate : Bool) (fIns : List Bool) (db : DB)
    (tname bname kfield : String) (keys : List Value) :
    backup_records (some ()) false fCreate fIns db tname bname kfield keys =
      match txBackup fCreate fIns db tname
          (resolveBackupName (tableNames db) bname) kfield keys with
      | some db2 => .ok (db2, false)
      | none => .ok (db, true) := rfl

theorem backup_records_isOk (fCreate : Bool) (fIns : List Bool) (db : DB)
    (tname bname kfield : String) (keys : List Value) :
    ∃ p, backup_records (some ()) false fCreate fIns db tname bname kfield keys
      = .ok p := by
  rw [backup_records_eq_tx]
  cases txBackup fCreate fIns db tname
      (resolveBackupName (tableNames db) bname) kfield keys with
  | none => exact ⟨(db, true), rfl⟩
  | some db2 => exact ⟨(db2, false), rfl⟩

theorem remove_records_eq (fDel : List Bool) (db : DB) (tname kfield : String)
    (keys : List Value) :
    remove_records (some ()) fDel db tname kfield keys =
      match runDeletes tname kfield db keys fDel with
      | some db2 => .ok (db2, false)
      | none => .ok (db, true) := rfl

theorem remove_records_isOk (fDel : List Bool) (db : DB) (tname kfield : String)
    (keys : List Value) :
    ∃ p, remove_records (some ()) fDel db tname kfield keys = .ok p := by
  rw [remove_records_eq]
  cases runDeletes tname kfield db keys fDel with
  | none => exact ⟨(db, true), rfl⟩
  | some db2 => exact ⟨(db2, false), rfl⟩

theorem restore_records_eq (fIns : List Bool) (db : DB)
    (tname bname kfield : String) (keys : List Value) :
    restore_records (some ()) fIns db tname bname kfield keys =
      match runInserts tname bname kfield db keys fIns with
      | some db2 => .ok (db2, false)
      | none => .ok (db, true) := rfl

theorem restore_records_isOk (fIns : List Bool) (db : DB)
    (tname bname kfield : String) (keys : List Value) :
    ∃ p, restore_records (some ()) fIns db tname bname kfield keys = .ok p := by
  rw [restore_records_eq]
  cases runInserts tname bname kfield db keys fIns with
  | none => exact ⟨(db, true), rfl⟩
  | some db2 => exact ⟨(db2, false), rfl⟩

theorem remove_records_frame {fDel : List Bool} {db db2 : DB}
    {tname kfield : String} {keys : List Value} {e : Bool}
    (h : remove_records (some ()) fDel db tname kfield keys = .ok (db2, e))
    {m : String} (hm : m ≠ tname) : lookupTable db2 m = lookupTable db m := by
  rw [remove_records_eq] at h
  cases hr : runDeletes tname kfield db keys fDel with
  | none =>
    rw [hr] at h
    have h2 : (Except.ok (db, true) : Except PyExc (DB × Bool)) = .ok (db2, e) := h
    cases Except.ok.inj h2
    rfl
  | some dbx =>
    rw [hr] at h
    have h2 : (Except.ok (dbx, false) : Except PyExc (DB × Bool)) = .ok (db2, e) := h
    cases Except.ok.inj h2
    exact runDeletes_frame hr hm

theorem restore_records_frame {fIns : List Bool} {db db2 : DB}
    {tname bname kfield : String} {keys : List Value} {e : Bool}
    (h : restore_records (some ()) fIns db tname bname kfield keys = .ok (db2, e))
    {m : String} (hm : m ≠ tname) : lookupTable db2 m = lookupTable db m := by
  rw [restore_records_eq] at h
  cases hr : runInserts tname bname kfield db keys fIns with
  | none =>
    rw [hr] at h
    have h2 : (Except.ok (db, true) : Except PyExc (DB × Bool)) = .ok (db2, e) := h
    cases Except.ok.inj h2
    rfl
  | some dbx =>
    rw [hr] at h
    have h2 : (Except.ok (dbx, false) : Except PyExc (DB × Bool)) = .ok (db2, e) := h
    cases Except.ok.inj h2
    exact runInserts_frame hr hm

theorem backup_records_success {db : DB} {tname : String} {t : Table}
    {kfield : String} {idx : Nat}
    (hnd : (tableNames db).Nodup)
    (ht : lookupTable db tname = some t)
    (hidx : colIndex t.schema.cols kfield = some idx)
    (bname : String) (keys : List Value) :
    backup_records (some ()) false false [] db tname bname kfield keys =
      .ok (db ++ [(resolveBackupName (tableNames db) bname,
        ⟨likeSchema t.schema false,
          keys.flatMap (fun v => t.rows.filter (fun r => decide (keyAt idx r = v)))⟩)],
        false) := by
  have hfresh : resolveBackupName (tableNames db) bname ∉ tableNames db :=
    resolveBackupName_not_mem _ _
  have htn : tname ∈ tableNames db := lookupTable_mem ht
  have hne : resolveBackupName (tableNames db) bname ≠ tname :=
    fun he => hfresh (he ▸ htn)
  have hcreate : createLike db (resolveBackupName (tableNames db) bname) tname =
      some (db ++ [(resolveBackupName (tableNames db) bname,
        ⟨likeSchema t.schema false, []⟩)]) := by
    rw [createLike, if_neg hfresh, ht]
  have hnd1 : (tableNames (db ++ [(resolveBackupName (tableNames db) bname,
      ⟨likeSchema t.schema false, []⟩)])).Nodup := by
    rw [tableNames_append, tableNames_cons]
    exact List.Nodup.append hnd (List.nodup_singleton _)
      (List.disjoint_singleton.mpr hfresh)
  have hs1 : lookupTable (db ++ [(resolveBackupName (tableNames db) bname,
      ⟨likeSchema t.schema false, []⟩)]) tname = some t :=
    lookupTable_append_left _ ht
  have hd1 : lookupTable (db ++ [(resolveBackupName (tableNames db) bname,
      ⟨likeSchema t.schema false, []⟩)])
      (resolveBackupName (tableNames db) bname) =
      some ⟨likeSchema t.schema false, []⟩ := by
    rw [lookupTable_append_right _ hfresh, lookupTable_cons, if_pos rfl]
  have hins := @runInserts_ok
    (db ++ [(resolveBackupName (tableNames db) bname, ⟨likeSchema t.schema false, []⟩)])
    (resolveBackupName (tableNames db) bname) tname kfield t
    ⟨likeSchema t.schema false, []⟩ idx hnd1 hne hs1 hd1 hidx rfl keys
  have htx : txBackup false [] db tname
      (resolveBackupName (tableNames db) bname) kfield keys =
      some (db ++ [(resolveBackupName (tableNames db) bname,
        ⟨likeSchema t.schema false,
          keys.flatMap (fun v => t.rows.filter (fun r => decide (keyAt idx r = v)))⟩)]) := by
    rw [txBackup, if_neg Bool.false_ne_true, hcreate]
    show runInserts _ _ _ _ keys [] = _
    rw [hins, updateTable_append, updateTable_not_mem _ hfresh, updateTable_cons,
      if_pos rfl, List.nil_append]
    rfl
  rw [backup_records_eq_tx, htx]

theorem remove_records_success {db : DB} {tname : String} {t : Table}
    {kfield : String} {idx : Nat}
    (hnd : (tableNames db).Nodup)
    (ht : lookupTable db tname = some t)
    (hidx : colIndex t.schema.cols kfield = some idx)
    (keys : List Value) :
    remove_records (some ()) [] db tname kfield keys =
      .ok (updateTable db tname
        ⟨t.schema, t.rows.filter (fun r => decide (¬ keyAt idx r ∈ keys))⟩, false) := by
  rw [remove_records_eq, runDeletes_ok hnd ht hidx keys]

theorem restore_records_success {db : DB} {tname bname kfield : String}
    {s d : Table} {idx : Nat}
    (hnd : (tableNames db).Nodup)
    (hne : tname ≠ bname)
    (hs : lookupTable db bname = some s)
    (hd : lookupTable db tname = some d)
    (hidx : colIndex s.schema.cols kfield = some idx)
    (hlen : s.schema.cols.length = d.schema.cols.length)
    (keys : List Value) :
    restore_records (some ()) [] db tname bname kfield keys =
      .ok (updateTable db tname
        ⟨d.schema, d.rows ++ keys.flatMap
          (fun v => s.rows.filter (fun r => decide (keyAt idx r = v)))⟩, false) := by
  rw [restore_records_eq,
    @runInserts_ok db tname bname kfield s d idx hnd hne hs hd hidx hlen keys]

/-! ### Multiset lemmas about filtered row sets -/

theorem filter_or_perm {α : Type} {l : List α} {p q : α → Bool}
    (hdisj : ∀ x ∈ l, ¬(p x = true ∧ q x = true)) :
    (l.filter p ++ l.filter q).Perm (l.filter (fun x => p x || q x)) := by
  induction l with
  | nil => simp
  | cons a l2 ih =>
    have iha := ih (fun x hx => hdisj x (List.mem_cons_of_mem a hx))
    by_cases hpa : p a = true
    · have hqa : q a = false := by
        by_cases hq : q a = true
        · exact absurd ⟨hpa, hq⟩ (hdisj a (List.mem_cons_self a l2))
        · exact Bool.not_eq_true _ ▸ (by simpa using hq)
      simp only [List.filter_cons, hpa, hqa, Bool.true_or, if_pos rfl,
        if_neg Bool.false_ne_true, List.cons_append]
      exact iha.cons a
    · have hpa2 : p a = false := by simpa using hpa
      by_cases hq : q a = true
      · simp only [List.filter_cons, hpa2, hq, Bool.false_or, if_pos rfl,
          if_neg Bool.false_ne_true]
        exact List.Perm.trans List.perm_middle (iha.cons a)
      · have hqa2 : q a = false := by simpa using hq
        simp only [List.filter_cons, hpa2, hqa2, Bool.false_or,
          if_neg Bool.false_ne_true]
        exact iha

theorem flatMap_filter_perm {α β : Type} [DecidableEq β] (f : α → β) (l : List α) :
    ∀ keys : List β, keys.Nodup →
      (keys.flatMap (fun v => l.filter (fun r => decide (f r = v)))).Perm
        (l.filter (fun r => decide (f r ∈ keys))) := by
  intro keys
  induction keys with
  | nil =>
    intro _
    simp
  | cons k ks ih =>
    intro hnd
    rw [List.nodup_cons] at hnd
    rw [List.flatMap_cons]
    have step1 := List.Perm.append_left (l.filter (fun r => decide (f r = k))) (ih hnd.2)
    have step2 : (l.filter (fun r => decide (f r = k)) ++
        l.filter (fun r => decide (f r ∈ ks))).Perm
        (l.filter (fun x => decide (f x = k) || decide (f x ∈ ks))) := by
      apply filter_or_perm
      intro x _ hx
      rw [decide_eq_true_eq] at hx
      rw [decide_eq_true_eq] at hx
      exact hnd.1 (hx.1 ▸ hx.2)
    have step3 : l.filter (fun x => decide (f x = k) || decide (f x ∈ ks)) =
        l.filter (fun r => decide (f r ∈ k :: ks)) :=
      List.filter_congr (fun x _ => by simp [List.mem_cons])
    exact (step1.trans step2).trans (step3 ▸ List.Perm.refl _)

theorem filter_flatMap_self {α β : Type} [DecidableEq β] (f : α → β) (l : List α) :
    ∀ (keys : List β) (k : β), keys.Nodup → k ∈ keys →
      (keys.flatMap (fun v => l.filter (fun r => decide (f r = v)))).filter
        (fun r => decide (f r = k)) = l.filter (fun r => decide (f r = k)) := by
  intro keys
  induction keys with
  | nil =>
    intro k _ hk
    cases hk
  | cons k2 ks ih =>
    intro k hnd hk
    rw [List.nodup_cons] at hnd
    rw [List.flatMap_cons, List.filter_append]
    rcases List.mem_cons.mp hk with hkk | hkk
    · subst hkk
      have part1 : (l.filter (fun r => decide (f r = k))).filter
          (fun r => decide (f r = k)) = l.filter (fun r => decide (f r = k)) := by
        rw [List.filter_filter]
        exact List.filter_congr (fun x _ => by simp)
      have part2 : (ks.flatMap (fun v => l.filter (fun r => decide (f r = v)))).filter
          (fun r => decide (f r = k)) = [] := by
        rw [List.filter_eq_nil_iff]
        intro a ha
        rw [List.mem_flatMap] at ha
        obtain ⟨v, hv, hav⟩ := ha
        have hfa : f a = v := by
          have := List.of_mem_filter hav
          rwa [decide_eq_true_eq] at this
        rw [decide_eq_true_eq, hfa]
        exact fun he => hnd.1 (he ▸ hv)
      rw [part1, part2, List.append_nil]
    · have hkne : k ≠ k2 := fun he => hnd.1 (he ▸ hkk)
      have part1 : (l.filter (fun r => decide (f r = k2))).filter
          (fun r => decide (f r = k)) = [] := by
        rw [List.filter_eq_nil_iff]
        intro a ha
        have hfa : f a = k2 := by
          have := List.of_mem_filter ha
          rwa [decide_eq_true_eq] at this
        rw [decide_eq_true_eq, hfa]
        exact fun he => hkne he.symm
      rw [part1, List.nil_append]
      exact ih k hnd.2 hkk

theorem count_map_eq_length_filter {α β : Type} [DecidableEq β] (f : α → β)
    (l : List α) (v : β) :
    (l.map f).count v = (l.filter (fun r => decide (f r = v))).length := by
  induction l with
  | nil => rfl
  | cons a l2 ih =>
    rw [List.map_cons, List.count_cons, List.filter_cons]
    by_cases h : f a = v
    · simp [h, ih]
    · simp [h, ih]

/-! ### Concrete example databases (witnesses and counterexamples) -/

/-- The spec scenario's `customers(customer_id int, name text)` structure. -/
def csSchema : Schema := ⟨["customer_id", "name"], []⟩

/-- The spec scenario's rows `(1,'a'),(2,'b'),(3,'c')`. -/
def csRows : List Row :=
  [[Value.int 1, Value.text "a"], [Value.int 2, Value.text "b"],
   [Value.int 3, Value.text "c"]]

/-- A database where the desired backup name is still free. -/
def exFresh : DB := [("customers", ⟨csSchema, csRows⟩)]

/-- A database where a table named `customers_backup` already exists
(same structure, no rows). -/
def exClash : DB :=
  [("customers", ⟨csSchema, csRows⟩), ("customers_backup", ⟨csSchema, []⟩)]

/-- A one-column table used by the rename-loop examples. -/
def kTable : Table := ⟨⟨["k"], []⟩, []⟩

/-- Two tables `X` and `X_v1`, to exercise the rename loop twice. -/
def exTwoClash : DB := [("X", kTable), ("X_v1", kTable)]

/-- Table `customers` carrying an index/constraint that `INCLUDING ALL` would copy. -/
def exIndexed : DB :=
  [("customers", ⟨⟨["customer_id", "name"], ["customers_pkey"]⟩, csRows⟩)]

/-- Ten rows, so that `random.sample(_, 10)` succeeds. -/
def bigRows : List Row :=
  (List.range 10).map (fun i => [Value.int (Int.ofNat i), Value.text "x"])

/-- A customers table large enough for the hardcoded sample size. -/
def exBig : DB := [("customers", ⟨csSchema, bigRows⟩)]

/-- A fault-free run. -/
def noFaults : Faults := ⟨false, false, false, false, [], [], []⟩

/-- Only the connection attempt fails. -/
def connFault : Faults := ⟨true, false, false, false, [], [], []⟩

/-- Only the `SELECT` of `get_primary_key_values` fails. -/
def pkvFault : Faults := ⟨false, true, false, false, [], [], []⟩

/-! ### Claim theorems -/

/-- C6: `connect_to_database` logs and returns a null connection (`None`)
when opening the connection fails with a database error, instead of
propagating the error; on success it returns the live connection. -/
theorem connect_failure_returns_none :
    connect_to_database true = (none, true) ∧
    connect_to_database false = (some (), false) :=
  ⟨rfl, rfl⟩

/-- C10: only `psycopg2` errors are caught; when `connect_to_database` fails
it returns `None`, every operation invoked with that `None` connection
raises an uncaught `AttributeError`, and the entry routine aborts at the
first such call, never reaching backup/remove/restore. -/
theorem none_connection_raises_uncaught (db : DB) (f : Faults)
    (sampled : List Value) (tname bname kfield : String) (keys : List Value)
    (fault fNames fCreate : Bool) (fIns fDel : List Bool)
    (hconn : f.connect = true) :
    mainRun db f sampled = ⟨["get_primary_key_values"], .error .attributeError⟩ ∧
    get_primary_key_values none fault db tname kfield = .error .attributeError ∧
    get_table_names none fault db = .error .attributeError ∧
    backup_records none fNames fCreate fIns db tname bname kfield keys
      = .error .attributeError ∧
    remove_records none fDel db tname kfield keys = .error .attributeError ∧
    restore_records none fIns db tname bname kfield keys = .error .attributeError := by
  refine ⟨?_, rfl, rfl, rfl, rfl, rfl⟩
  simp [mainRun, hconn, connect_to_database, get_primary_key_values]

/-- C10 witness: in a run whose connection attempt fails, the entry routine
crashes with the uncaught `AttributeError` before backup/remove/restore. -/
theorem none_connection_raises_uncaught_witness :
    mainRun exFresh connFault [] =
      ⟨["get_primary_key_values"], .error .attributeError⟩ ∧
    get_primary_key_values none false exFresh "customers" "customer_id"
      = .error .attributeError ∧
    get_table_names none false exFresh = .error .attributeError ∧
    backup_records none false false [] exFresh "customers" "customers_backup"
      "customer_id" [] = .error .attributeError ∧
    remove_records none [] exFresh "customers" "customer_id" []
      = .error .attributeError ∧
    restore_records none [] exFresh "customers" "customers_backup"
      "customer_id" [] = .error .attributeError :=
  none_connection_raises_uncaught exFresh connFault [] "customers"
    "customers_backup" "customer_id" [] false false false [] [] rfl

/-- C7: with a live connection and no database error,
`get_primary_key_values` returns exactly the key column of the table —
for every value, its multiplicity among the returned values equals the
number of rows carrying it — and leaves the database state unchanged. -/
theorem get_primary_key_values_exact {db : DB} {tname kfield : String}
    {t : Table} {idx : Nat} (v : Value)
    (ht : lookupTable db tname = some t)
    (hidx : colIndex t.schema.cols kfield = some idx) :
    get_primary_key_values (some ()) false db tname kfield =
      .ok (some (t.rows.map (keyAt idx)), db, false) ∧
    (t.rows.map (keyAt idx)).count v =
      (t.rows.filter (fun r => decide (keyAt idx r = v))).length := by
  constructor
  · simp [get_primary_key_values, ht, hidx]
  · exact count_map_eq_length_filter (keyAt idx) t.rows v

/-- C7 witness: on the spec's three-row `customers` table the call returns
the key column `[1, 2, 3]` unchanged-state, and the count of key `2` equals
the number of rows with `customer_id = 2`. -/
theorem get_primary_key_values_exact_witness :
    get_primary_key_values (some ()) false exFresh "customers" "customer_id" =
      .ok (some ((⟨csSchema, csRows⟩ : Table).rows.map (keyAt 0)), exFresh, false) ∧
    ((⟨csSchema, csRows⟩ : Table).rows.map (keyAt 0)).count (Value.int 2) =
      ((⟨csSchema, csRows⟩ : Table).rows.filter
        (fun r => decide (keyAt 0 r = Value.int 2))).length :=
  get_primary_key_values_exact (Value.int 2) rfl rfl

/-- C4: the backup batch is transactional: if any per-row `INSERT` fails
with a database error, the whole call rolls back and returns the original
state (no partial backup persists); with no failure the single commit
persists the created backup table holding exactly the selected rows. -/
theorem backup_batch_atomic {db : DB} {tname : String} {t : Table}
    {kfield : String} {idx : Nat} (bname : String) (keys : List Value)
    (fCreate : Bool) (fIns : List Bool)
    (hnd : (tableNames db).Nodup)
    (ht : lookupTable db tname = some t)
    (hidx : colIndex t.schema.cols kfield = some idx)
    (hfail : ∃ i, i < keys.length ∧ fIns.getD i false = true) :
    backup_records (some ()) false fCreate fIns db tname bname kfield keys
      = .ok (db, true) ∧
    backup_records (some ()) false false [] db tname bname kfield keys =
      .ok (db ++ [(resolveBackupName (tableNames db) bname,
        ⟨likeSchema t.schema false,
          keys.flatMap (fun v => t.rows.filter (fun r => decide (keyAt idx r = v)))⟩)],
        false) := by
  refine ⟨?_, backup_records_success hnd ht hidx bname keys⟩
  rw [backup_records_eq_tx]
  have htx : txBackup fCreate fIns db tname
      (resolveBackupName (tableNames db) bname) kfield keys = none := by
    rw [txBackup]
    cases fCreate with
    | true => rw [if_pos rfl]
    | false =>
      rw [if_neg Bool.false_ne_true]
      cases hcr : createLike db (resolveBackupName (tableNames db) bname) tname with
      | none => rfl
      | some db1 =>
        show runInserts _ _ _ db1 keys fIns = none
        exact runInserts_fault hfail
  rw [htx]

/-- C4 witness: with a fault injected on the first insert the call returns
the untouched database with a diagnostic; the fault-free call persists the
backup table with the single selected row. -/
theorem backup_batch_atomic_witness :
    backup_records (some ()) false false [true] exFresh "customers"
      "customers_backup" "customer_id" [Value.int 1] = .ok (exFresh, true) ∧
    backup_records (some ()) false false [] exFresh "customers"
      "customers_backup" "customer_id" [Value.int 1] =
      .ok (exFresh ++ [(resolveBackupName (tableNames exFresh) "customers_backup",
        ⟨likeSchema csSchema false,
          [Value.int 1].flatMap (fun v =>
            csRows.filter (fun r => decide (keyAt 0 r = v)))⟩)], false) :=
  backup_batch_atomic "customers_backup" [Value.int 1] false [true]
    (by decide)
    (show lookupTable exFresh "customers" = some ⟨csSchema, csRows⟩ from rfl)
    (show colIndex csSchema.cols "customer_id" = some 0 from rfl)
    ⟨0, by decide, rfl⟩

/-- C2 counterexample: with tables `X` and `X_v1` both present, requesting
backup name `X` creates the table `X_v1_v2` (the loop appends to the renamed
candidate), and no table named `X_v2` is created. -/
theorem backup_naming_second_collision_cex :
    backup_records (some ()) false false [] exTwoClash "X" "X" "k" [] =
      .ok (exTwoClash ++ [("X_v1_v2", ⟨⟨["k"], []⟩, []⟩)], false) ∧
    lookupTable (exTwoClash ++ [("X_v1_v2", ⟨⟨["k"], []⟩, []⟩)]) "X_v2" = none ∧
    "X_v2" ≠ "X_v1_v2" := by
  refine ⟨by decide, rfl, by decide⟩

/-- C2 amended: on a name collision the loop appends `_v{n}` to the previous
candidate, with `n` incremented each round: requesting `X` when `X` exists
creates `X_v1`; when `X_v1` also exists it creates `X_v1_v2` (not `X_v2`),
continuing until the accumulated candidate is absent from the live table
list. -/
theorem backup_naming_appends_suffix {db : DB} {tname : String} {t : Table}
    {kfield : String} {idx : Nat} (bname : String) (keys : List Value)
    (hnd : (tableNames db).Nodup)
    (ht : lookupTable db tname = some t)
    (hidx : colIndex t.schema.cols kfield = some idx) :
    (bname ∈ tableNames db → bname ++ "_v1" ∉ tableNames db →
      backup_records (some ()) false false [] db tname bname kfield keys =
        .ok (db ++ [(bname ++ "_v1",
          ⟨likeSchema t.schema false,
            keys.flatMap (fun v => t.rows.filter (fun r => decide (keyAt idx r = v)))⟩)],
          false)) ∧
    (bname ∈ tableNames db → bname ++ "_v1" ∈ tableNames db →
      bname ++ "_v1" ++ "_v2" ∉ tableNames db →
      backup_records (some ()) false false [] db tname bname kfield keys =
        .ok (db ++ [(bname ++ "_v1" ++ "_v2",
          ⟨likeSchema t.schema false,
            keys.flatMap (fun v => t.rows.filter (fun r => decide (keyAt idx r = v)))⟩)],
          false)) := by
  constructor
  · intro h0 h1
    rw [backup_records_success hnd ht hidx bname keys,
      resolveBackupName_collision_once h0 h1]
  · intro h0 h1 h2
    rw [backup_records_success hnd ht hidx bname keys,
      resolveBackupName_collision_twice h0 h1 h2]

/-- C2 witness: the amended naming law applied to the concrete database
holding `X` and `X_v1`. -/
theorem backup_naming_appends_suffix_witness :
    ("X" ∈ tableNames exTwoClash → "X" ++ "_v1" ∉ tableNames exTwoClash →
      backup_records (some ()) false false [] exTwoClash "X" "X" "k" [] =
        .ok (exTwoClash ++ [("X" ++ "_v1",
          ⟨likeSchema kTable.schema false,
            ([] : List Value).flatMap (fun v =>
              kTable.rows.filter (fun r => decide (keyAt 0 r = v)))⟩)],
          false)) ∧
    ("X" ∈ tableNames exTwoClash → "X" ++ "_v1" ∈ tableNames exTwoClash →
      "X" ++ "_v1" ++ "_v2" ∉ tableNames exTwoClash →
      backup_records (some ()) false false [] exTwoClash "X" "X" "k" [] =
        .ok (exTwoClash ++ [("X" ++ "_v1" ++ "_v2",
          ⟨likeSchema kTable.schema false,
            ([] : List Value).flatMap (fun v =>
              kTable.rows.filter (fun r => decide (keyAt 0 r = v)))⟩)],
          false)) :=
  backup_naming_appends_suffix "X" [] (by decide)
    (show lookupTable exTwoClash "X" = some kTable from rfl)
    (show colIndex kTable.schema.cols "k" = some 0 from rfl)

/-- C3 counterexample: the source table carries an index that
`INCLUDING ALL` would copy; the created backup table has the source's
columns but an empty index/constraint list, so its structure differs from
the `CREATE TABLE … (LIKE … INCLUDING ALL)` clone of the spec. -/
theorem backup_table_drops_indexes_cex :
    backup_records (some ()) false false [] exIndexed "customers"
      "customers_backup" "customer_id" [Value.int 1] =
      .ok (exIndexed ++ [("customers_backup",
        ⟨⟨["customer_id", "name"], []⟩, [[Value.int 1, Value.text "a"]]⟩)], false) ∧
    likeSchema ⟨["customer_id", "name"], ["customers_pkey"]⟩ true =
      ⟨["customer_id", "name"], ["customers_pkey"]⟩ ∧
    (⟨["customer_id", "name"], []⟩ : Schema) ≠
      likeSchema ⟨["customer_id", "name"], ["customers_pkey"]⟩ true := by
  refine ⟨by decide, rfl, by decide⟩

/-- C3 amended: `backup_records` creates the backup table with the source's
columns but without its constraints/indexes — the bare
`CREATE TABLE … (LIKE source)` clone, not the `INCLUDING ALL` one. -/
theorem backup_table_bare_like {db : DB} {tname : String} {t : Table}
    {kfield : String} {idx : Nat} (bname : String) (keys : List Value)
    (hnd : (tableNames db).Nodup)
    (ht : lookupTable db tname = some t)
    (hidx : colIndex t.schema.cols kfield = some idx) :
    backup_records (some ()) false false [] db tname bname kfield keys =
      .ok (db ++ [(resolveBackupName (tableNames db) bname,
        ⟨likeSchema t.schema false,
          keys.flatMap (fun v => t.rows.filter (fun r => decide (keyAt idx r = v)))⟩)],
        false) ∧
    (likeSchema t.schema false).cols = t.schema.cols ∧
    (likeSchema t.schema false).indexes = [] ∧
    likeSchema t.schema true = ⟨t.schema.cols, t.schema.indexes⟩ :=
  ⟨backup_records_success hnd ht hidx bname keys, rfl, rfl, rfl⟩

/-- C3 witness: the bare-`LIKE` structure law on the indexed source table. -/
theorem backup_table_bare_like_witness :
    backup_records (some ()) false false [] exIndexed "customers"
      "customers_backup" "customer_id" [Value.int 1] =
      .ok (exIndexed ++ [(resolveBackupName (tableNames exIndexed) "customers_backup",
        ⟨likeSchema ⟨["customer_id", "name"], ["customers_pkey"]⟩ false,
          [Value.int 1].flatMap (fun v =>
            csRows.filter (fun r => decide (keyAt 0 r = v)))⟩)], false) ∧
    (likeSchema ⟨["customer_id", "name"], ["customers_pkey"]⟩ false).cols =
      (⟨["customer_id", "name"], ["customers_pkey"]⟩ : Schema).cols ∧
    (likeSchema ⟨["customer_id", "name"], ["customers_pkey"]⟩ false).indexes = [] ∧
    likeSchema ⟨["customer_id", "name"], ["customers_pkey"]⟩ true =
      ⟨["customer_id", "name"], ["customers_pkey"]⟩ :=
  backup_table_bare_like "customers_backup" [Value.int 1] (by decide)
    (show lookupTable exIndexed "customers" =
      some ⟨⟨["customer_id", "name"], ["customers_pkey"]⟩, csRows⟩ from rfl)
    (show colIndex ["customer_id", "name"] "customer_id" = some 0 from rfl)

/-- C1 counterexample: when a table with the requested backup name already
exists (here `customers_backup`, same structure, empty), the fault-free
backup → remove → restore run completes with no database error and no
diagnostic, yet the source table ends with rows `(2,'b'),(3,'c')` — row
`(1,'a')` is lost, so the final row set is not a permutation of the
original. -/
theorem round_trip_fails_on_name_collision_cex :
    scenarioRows exClash "customers" "customers_backup" "customer_id"
      [Value.int 1] =
      some [[Value.int 2, Value.text "b"], [Value.int 3, Value.text "c"]] ∧
    ¬ ([[Value.int 2, Value.text "b"], [Value.int 3, Value.text "c"]] :
      List Row).Perm csRows :=
  ⟨by decide, by decide⟩

/-- C1 amended: with the added precondition that the requested backup-table
name does not already exist, the fault-free backup → remove → restore
sequence (same table, key field and key set) leaves the source table's row
multiset equal to the original on all columns. -/
theorem round_trip_restores_source_rows {db : DB} {tname bname kfield : String}
    {t : Table} {idx : Nat} (keys : List Value)
    (hnd : (tableNames db).Nodup)
    (ht : lookupTable db tname = some t)
    (hidx : colIndex t.schema.cols kfield = some idx)
    (hfresh : bname ∉ tableNames db)
    (hkeys : keys.Nodup)
    (huniq : (t.rows.map (keyAt idx)).Nodup) :
    scenarioRows db tname bname kfield keys =
      some (t.rows.filter (fun r => decide (¬ keyAt idx r ∈ keys)) ++
        keys.flatMap (fun v => t.rows.filter (fun r => decide (keyAt idx r = v)))) ∧
    (t.rows.filter (fun r => decide (¬ keyAt idx r ∈ keys)) ++
      keys.flatMap (fun v => t.rows.filter (fun r => decide (keyAt idx r = v)))).Perm
      t.rows := by
  have htn : tname ∈ tableNames db := lookupTable_mem ht
  have hne : tname ≠ bname := fun he => hfresh (he ▸ htn)
  have hbak := backup_records_success hnd ht hidx bname keys
  rw [resolveBackupName_of_not_mem hfresh] at hbak
  have hnd1 : (tableNames (db ++ [(bname,
      ⟨likeSchema t.schema false,
        keys.flatMap (fun v => t.rows.filter (fun r => decide (keyAt idx r = v)))⟩)])).Nodup := by
    rw [tableNames_append, tableNames_cons]
    exact List.Nodup.append hnd (List.nodup_singleton _)
      (List.disjoint_singleton.mpr hfresh)
  have ht1 : lookupTable (db ++ [(bname,
      ⟨likeSchema t.schema false,
        keys.flatMap (fun v => t.rows.filter (fun r => decide (keyAt idx r = v)))⟩)])
      tname = some t := lookupTable_append_left _ ht
  have hb1 : lookupTable (db ++ [(bname,
      ⟨likeSchema t.schema false,
        keys.flatMap (fun v => t.rows.filter (fun r => decide (keyAt idx r = v)))⟩)])
      bname = some ⟨likeSchema t.schema false,
        keys.flatMap (fun v => t.rows.filter (fun r => decide (keyAt idx r = v)))⟩ := by
    rw [lookupTable_append_right _ hfresh, lookupTable_cons, if_pos rfl]
  have hrem := remove_records_success hnd1 ht1 hidx keys
  have hnd2 : (tableNames (updateTable (db ++ [(bname,
      ⟨likeSchema t.schema false,
        keys.flatMap (fun v => t.rows.filter (fun r => decide (keyAt idx r = v)))⟩)])
      tname ⟨t.schema, t.rows.filter (fun r => decide (¬ keyAt idx r ∈ keys))⟩)).Nodup := by
    rw [tableNames_update]
    exact hnd1
  have ht2 : lookupTable (updateTable (db ++ [(bname,
      ⟨likeSchema t.schema false,
        keys.flatMap (fun v => t.rows.filter (fun r => decide (keyAt idx r = v)))⟩)])
      tname ⟨t.schema, t.rows.filter (fun r => decide (¬ keyAt idx r ∈ keys))⟩)
      tname = some ⟨t.schema, t.rows.filter (fun r => decide (¬ keyAt idx r ∈ keys))⟩ :=
    lookupTable_update_self _ (lookupTable_mem ht1)
  have hb2 : lookupTable (updateTable (db ++ [(bname,
      ⟨likeSchema t.schema false,
        keys.flatMap (fun v => t.rows.filter (fun r => decide (keyAt idx r = v)))⟩)])
      tname ⟨t.schema, t.rows.filter (fun r => decide (¬ keyAt idx r ∈ keys))⟩)
      bname = some ⟨likeSchema t.schema false,
        keys.flatMap (fun v => t.rows.filter (fun r => decide (keyAt idx r = v)))⟩ := by
    rw [lookupTable_update_other _ (Ne.symm hne)]
    exact hb1
  have hres := restore_records_success hnd2 hne hb2 ht2
    (show colIndex (likeSchema t.schema false).cols kfield = some idx from hidx)
    rfl keys
  have hsimpl : keys.flatMap (fun v =>
      (⟨likeSchema t.schema false,
        keys.flatMap (fun w => t.rows.filter (fun r => decide (keyAt idx r = w)))⟩ :
          Table).rows.filter (fun r => decide (keyAt idx r = v))) =
      keys.flatMap (fun v => t.rows.filter (fun r => decide (keyAt idx r = v))) :=
    List.flatMap_congr (fun v hv => filter_flatMap_self (keyAt idx) t.rows keys v hkeys hv)
  rw [hsimpl] at hres
  constructor
  · have hrun : runScenario db tname bname kfield keys =
        some (updateTable (updateTable (db ++ [(bname,
          ⟨likeSchema t.schema false,
            keys.flatMap (fun v => t.rows.filter (fun r => decide (keyAt idx r = v)))⟩)])
          tname ⟨t.schema, t.rows.filter (fun r => decide (¬ keyAt idx r ∈ keys))⟩)
          tname ⟨t.schema, t.rows.filter (fun r => decide (¬ keyAt idx r ∈ keys)) ++
            keys.flatMap (fun v => t.rows.filter (fun r => decide (keyAt idx r = v)))⟩,
          false, false, false) := by
      simp only [runScenario, hbak, hrem, hres]
    have hlook3 : lookupTable (updateTable (updateTable (db ++ [(bname,
        ⟨likeSchema t.schema false,
          keys.flatMap (fun v => t.rows.filter (fun r => decide (keyAt idx r = v)))⟩)])
        tname ⟨t.schema, t.rows.filter (fun r => decide (¬ keyAt idx r ∈ keys))⟩)
        tname ⟨t.schema, t.rows.filter (fun r => decide (¬ keyAt idx r ∈ keys)) ++
          keys.flatMap (fun v => t.rows.filter (fun r => decide (keyAt idx r = v)))⟩)
        tname = some ⟨t.schema, t.rows.filter (fun r => decide (¬ keyAt idx r ∈ keys)) ++
          keys.flatMap (fun v => t.rows.filter (fun r => decide (keyAt idx r = v)))⟩ :=
      lookupTable_update_self _ (lookupTable_mem ht2)
    simp only [scenarioRows, hrun, hlook3, Option.map_some']
  · have hkept : t.rows.filter (fun r => decide (¬ keyAt idx r ∈ keys)) =
        t.rows.filter (fun r => !decide (keyAt idx r ∈ keys)) :=
      List.filter_congr (fun x _ => decide_not)
    have step1 := List.Perm.append_left
      (t.rows.filter (fun r => decide (¬ keyAt idx r ∈ keys)))
      (flatMap_filter_perm (keyAt idx) t.rows keys hkeys)
    have step3 : (t.rows.filter (fun r => decide (keyAt idx r ∈ keys)) ++
        t.rows.filter (fun r => decide (¬ keyAt idx r ∈ keys))).Perm t.rows := by
      rw [hkept]
      exact List.filter_append_perm _ t.rows
    exact (step1.trans List.perm_append_comm).trans step3

/-- C1 witness: on the spec's three-row table with fresh backup name, keys
`{1, 3}` round-trip and the final row multiset is a permutation of the
original. -/
theorem round_trip_restores_source_rows_witness :
    scenarioRows exFresh "customers" "customers_backup" "customer_id"
      [Value.int 1, Value.int 3] =
      some (csRows.filter (fun r =>
          decide (¬ keyAt 0 r ∈ [Value.int 1, Value.int 3])) ++
        [Value.int 1, Value.int 3].flatMap (fun v =>
          csRows.filter (fun r => decide (keyAt 0 r = v)))) ∧
    (csRows.filter (fun r => decide (¬ keyAt 0 r ∈ [Value.int 1, Value.int 3])) ++
      [Value.int 1, Value.int 3].flatMap (fun v =>
        csRows.filter (fun r => decide (keyAt 0 r = v)))).Perm csRows :=
  round_trip_restores_source_rows [Value.int 1, Value.int 3] (by decide)
    (show lookupTable exFresh "customers" = some ⟨csSchema, csRows⟩ from rfl)
    (show colIndex csSchema.cols "customer_id" = some 0 from rfl)
    (by decide) (by decide) (by decide)

/-- C8: the backup table created and populated by `backup_records` is left
in place by whatever `remove_records` and `restore_records` do afterwards
(they only touch the source table, and a rollback restores their input
state), so after the run it still holds exactly the copied rows. -/
theorem backup_table_persists {db : DB} {tname bname kfield : String}
    {t : Table} {idx : Nat} (keys : List Value) (fDel fIns2 : List Bool)
    (db2 db3 : DB) (e2 e3 : Bool)
    (hnd : (tableNames db).Nodup)
    (ht : lookupTable db tname = some t)
    (hidx : colIndex t.schema.cols kfield = some idx)
    (hrem : remove_records (some ()) fDel
      (db ++ [(resolveBackupName (tableNames db) bname,
        ⟨likeSchema t.schema false,
          keys.flatMap (fun v => t.rows.filter (fun r => decide (keyAt idx r = v)))⟩)])
      tname kfield keys = .ok (db2, e2))
    (hres : restore_records (some ()) fIns2 db2 tname bname kfield keys
      = .ok (db3, e3)) :
    backup_records (some ()) false false [] db tname bname kfield keys =
      .ok (db ++ [(resolveBackupName (tableNames db) bname,
        ⟨likeSchema t.schema false,
          keys.flatMap (fun v => t.rows.filter (fun r => decide (keyAt idx r = v)))⟩)],
        false) ∧
    lookupTable db3 (resolveBackupName (tableNames db) bname) =
      some ⟨likeSchema t.schema false,
        keys.flatMap (fun v => t.rows.filter (fun r => decide (keyAt idx r = v)))⟩ := by
  refine ⟨backup_records_success hnd ht hidx bname keys, ?_⟩
  have hfresh := resolveBackupName_not_mem (tableNames db) bname
  have hne : resolveBackupName (tableNames db) bname ≠ tname :=
    fun he => hfresh (he ▸ lookupTable_mem ht)
  have h1 : lookupTable (db ++ [(resolveBackupName (tableNames db) bname,
      ⟨likeSchema t.schema false,
        keys.flatMap (fun v => t.rows.filter (fun r => decide (keyAt idx r = v)))⟩)])
      (resolveBackupName (tableNames db) bname) =
      some ⟨likeSchema t.schema false,
        keys.flatMap (fun v => t.rows.filter (fun r => decide (keyAt idx r = v)))⟩ := by
    rw [lookupTable_append_right _ hfresh, lookupTable_cons, if_pos rfl]
  rw [restore_records_frame hres hne, remove_records_frame hrem hne, h1]

/-- C8 witness: the concrete fault-free run on the three-row table keeps
the populated backup table intact through remove and restore. -/
theorem backup_table_persists_witness :
    backup_records (some ()) false false [] exFresh "customers"
      "customers_backup" "customer_id" [Value.int 1] =
      .ok (exFresh ++ [(resolveBackupName (tableNames exFresh) "customers_backup",
        ⟨likeSchema csSchema false,
          [Value.int 1].flatMap (fun v =>
            csRows.filter (fun r => decide (keyAt 0 r = v)))⟩)], false) ∧
    lookupTable [("customers", ⟨csSchema,
        [[Value.int 2, Value.text "b"], [Value.int 3, Value.text "c"],
         [Value.int 1, Value.text "a"]]⟩),
      ("customers_backup", ⟨csSchema, [[Value.int 1, Value.text "a"]]⟩)]
      (resolveBackupName (tableNames exFresh) "customers_backup") =
      some ⟨likeSchema csSchema false,
        [Value.int 1].flatMap (fun v =>
          csRows.filter (fun r => decide (keyAt 0 r = v)))⟩ :=
  backup_table_persists [Value.int 1] [] []
    [("customers", ⟨csSchema,
        [[Value.int 2, Value.text "b"], [Value.int 3, Value.text "c"]]⟩),
     ("customers_backup", ⟨csSchema, [[Value.int 1, Value.text "a"]]⟩)]
    [("customers", ⟨csSchema,
        [[Value.int 2, Value.text "b"], [Value.int 3, Value.text "c"],
         [Value.int 1, Value.text "a"]]⟩),
     ("customers_backup", ⟨csSchema, [[Value.int 1, Value.text "a"]]⟩)]
    false false (by decide)
    (show lookupTable exFresh "customers" = some ⟨csSchema, csRows⟩ from rfl)
    (show colIndex csSchema.cols "customer_id" = some 0 from rfl)
    (by decide) (by decide)

/-- C9: `backup_records` never reports the renamed backup table to its
caller; when the desired name already exists, the created table's name
differs from the desired one, and the subsequent restore call — invoked with
the desired name — re-inserts rows from the pre-existing table of that name,
not from the table the backup populated. -/
theorem restore_reads_preexisting_table {db : DB} {tname bname kfield : String}
    {t b0 : Table} {idx jdx : Nat} (keys : List Value)
    (hnd : (tableNames db).Nodup)
    (ht : lookupTable db tname = some t)
    (hidx : colIndex t.schema.cols kfield = some idx)
    (hb0 : lookupTable db bname = some b0)
    (hbt : bname ≠ tname)
    (hjdx : colIndex b0.schema.cols kfield = some jdx)
    (hlen : b0.schema.cols.length = t.schema.cols.length) :
    resolveBackupName (tableNames db) bname ≠ bname ∧
    scenarioRows db tname bname kfield keys =
      some (t.rows.filter (fun r => decide (¬ keyAt idx r ∈ keys)) ++
        keys.flatMap (fun v => b0.rows.filter (fun r => decide (keyAt jdx r = v)))) := by
  have hclash : bname ∈ tableNames db := lookupTable_mem hb0
  have hfresh := resolveBackupName_not_mem (tableNames db) bname
  refine ⟨fun he => hfresh (by rw [he]; exact hclash), ?_⟩
  have hbak := backup_records_success hnd ht hidx bname keys
  have hnd1 : (tableNames (db ++ [(resolveBackupName (tableNames db) bname,
      ⟨likeSchema t.schema false,
        keys.flatMap (fun v => t.rows.filter (fun r => decide (keyAt idx r = v)))⟩)])).Nodup := by
    rw [tableNames_append, tableNames_cons]
    exact List.Nodup.append hnd (List.nodup_singleton _)
      (List.disjoint_singleton.mpr hfresh)
  have ht1 : lookupTable (db ++ [(resolveBackupName (tableNames db) bname,
      ⟨likeSchema t.schema false,
        keys.flatMap (fun v => t.rows.filter (fun r => decide (keyAt idx r = v)))⟩)])
      tname = some t := lookupTable_append_left _ ht
  have hrem := remove_records_success hnd1 ht1 hidx keys
  have hnd2 : (tableNames (updateTable (db ++ [(resolveBackupName (tableNames db) bname,
      ⟨likeSchema t.schema false,
        keys.flatMap (fun v => t.rows.filter (fun r => decide (keyAt idx r = v)))⟩)])
      tname ⟨t.schema, t.rows.filter (fun r => decide (¬ keyAt idx r ∈ keys))⟩)).Nodup := by
    rw [tableNames_update]
    exact hnd1
  have ht2 : lookupTable (updateTable (db ++ [(resolveBackupName (tableNames db) bname,
      ⟨likeSchema t.schema false,
        keys.flatMap (fun v => t.rows.filter (fun r => decide (keyAt idx r = v)))⟩)])
      tname ⟨t.schema, t.rows.filter (fun r => decide (¬ keyAt idx r ∈ keys))⟩)
      tname = some ⟨t.schema, t.rows.filter (fun r => decide (¬ keyAt idx r ∈ keys))⟩ :=
    lookupTable_update_self _ (lookupTable_mem ht1)
  have hb2 : lookupTable (updateTable (db ++ [(resolveBackupName (tableNames db) bname,
      ⟨likeSchema t.schema false,
        keys.flatMap (fun v => t.rows.filter (fun r => decide (keyAt idx r = v)))⟩)])
      tname ⟨t.schema, t.rows.filter (fun r => decide (¬ keyAt idx r ∈ keys))⟩)
      bname = some b0 := by
    rw [lookupTable_update_other _ hbt]
    exact lookupTable_append_left _ hb0
  have hres := restore_records_success hnd2 (Ne.symm hbt) hb2 ht2 hjdx hlen keys
  have hrun : runScenario db tname bname kfield keys =
      some (updateTable (updateTable (db ++ [(resolveBackupName (tableNames db) bname,
        ⟨likeSchema t.schema false,
          keys.flatMap (fun v => t.rows.filter (fun r => decide (keyAt idx r = v)))⟩)])
        tname ⟨t.schema, t.rows.filter (fun r => decide (¬ keyAt idx r ∈ keys))⟩)
        tname ⟨t.schema, t.rows.filter (fun r => decide (¬ keyAt idx r ∈ keys)) ++
          keys.flatMap (fun v => b0.rows.filter (fun r => decide (keyAt jdx r = v)))⟩,
        false, false, false) := by
    simp only [runScenario, hbak, hrem, hres]
  have hlook3 : lookupTable (updateTable (updateTable (db ++
      [(resolveBackupName (tableNames db) bname,
        ⟨likeSchema t.schema false,
          keys.flatMap (fun v => t.rows.filter (fun r => decide (keyAt idx r = v)))⟩)])
      tname ⟨t.schema, t.rows.filter (fun r => decide (¬ keyAt idx r ∈ keys))⟩)
      tname ⟨t.schema, t.rows.filter (fun r => decide (¬ keyAt idx r ∈ keys)) ++
        keys.flatMap (fun v => b0.rows.filter (fun r => decide (keyAt jdx r = v)))⟩)
      tname = some ⟨t.schema, t.rows.filter (fun r => decide (¬ keyAt idx r ∈ keys)) ++
        keys.flatMap (fun v => b0.rows.filter (fun r => decide (keyAt jdx r = v)))⟩ :=
    lookupTable_update_self _ (lookupTable_mem ht2)
  simp only [scenarioRows, hrun, hlook3, Option.map_some']

/-- C9 witness: with the pre-existing empty `customers_backup` table, the
run restores nothing (the pre-existing table has no rows), even though the
populated backup went to `customers_backup_v1`. -/
theorem restore_reads_preexisting_table_witness :
    resolveBackupName (tableNames exClash) "customers_backup" ≠ "customers_backup" ∧
    scenarioRows exClash "customers" "customers_backup" "customer_id"
      [Value.int 1] =
      some (csRows.filter (fun r => decide (¬ keyAt 0 r ∈ [Value.int 1])) ++
        [Value.int 1].flatMap (fun v =>
          (⟨csSchema, []⟩ : Table).rows.filter (fun r => decide (keyAt 0 r = v)))) :=
  restore_reads_preexisting_table [Value.int 1] (by decide)
    (show lookupTable exClash "customers" = some ⟨csSchema, csRows⟩ from rfl)
    (show colIndex csSchema.cols "customer_id" = some 0 from rfl)
    (show lookupTable exClash "customers_backup" = some ⟨csSchema, []⟩ from rfl)
    (by decide)
    (show colIndex csSchema.cols "customer_id" = some 0 from rfl)
    rfl

/-- C5 counterexample: every operation does swallow database errors, but
when `get_primary_key_values` fails the entry routine crashes at
`random.sample(None, 10)` with an uncaught `TypeError`, so the subsequent
operations are *not* invoked. -/
theorem pkv_failure_aborts_main_cex :
    mainRun exFresh pkvFault [] =
      ⟨["get_primary_key_values"], .error .typeError⟩ ∧
    "backup_records" ∉ (mainRun exFresh pkvFault []).invoked ∧
    "remove_records" ∉ (mainRun exFresh pkvFault []).invoked ∧
    "restore_records" ∉ (mainRun exFresh pkvFault []).invoked :=
  ⟨by decide, by decide, by decide, by decide⟩

/-- C5 amended: each operation catches database errors of its own
statements, prints, and returns no failure signal; when the connection,
key-value fetch, and the table-list query inside `backup_records` all
succeed, backup, remove and restore are all invoked regardless of any
insert/delete failures inside them.  (A failed `get_primary_key_values`
instead aborts the routine with a `TypeError` before backup.) -/
theorem errors_swallowed_and_flow_continues {db : DB} {t : Table} {idx : Nat}
    (f : Faults) (sampled : List Value)
    (hconn : f.connect = false) (hpkv : f.pkv = false)
    (hnames : f.backupNames = false)
    (ht : lookupTable db "customers" = some t)
    (hidx : colIndex t.schema.cols "customer_id" = some idx)
    (h10 : ¬ t.rows.length < 10) :
    (mainRun db f sampled).invoked =
      ["get_primary_key_values", "backup_records", "remove_records",
       "restore_records"] := by
  obtain ⟨⟨db2, e2⟩, hbak⟩ := backup_records_isOk f.backupCreate f.backupInserts db
    "customers" "customers_backup" "customer_id" sampled
  obtain ⟨⟨db3, e3⟩, hrem⟩ := remove_records_isOk f.removeDeletes db2 "customers"
    "customer_id" sampled
  obtain ⟨⟨db4, e4⟩, hres⟩ := restore_records_isOk f.restoreInserts db3 "customers"
    "customers_backup" "customer_id" sampled
  have hc : (connect_to_database f.connect).1 = some () := by
    rw [hconn]
    rfl
  have hpkveq : get_primary_key_values (some ()) false db "customers"
      "customer_id" = .ok (some (t.rows.map (keyAt idx)), db, false) := by
    simp [get_primary_key_values, ht, hidx]
  simp only [mainRun, hc, hpkv, hnames, hpkveq, List.length_map, if_neg h10,
    hbak, hrem, hres]

/-- C5 witness: a fault-free run on a ten-row table invokes all four
operations. -/
theorem errors_swallowed_and_flow_continues_witness :
    (mainRun exBig noFaults []).invoked =
      ["get_primary_key_values", "backup_records", "remove_records",
       "restore_records"] :=
  errors_swallowed_and_flow_continues noFaults [] rfl rfl rfl
    (show lookupTable exBig "customers" = some ⟨csSchema, bigRows⟩ from rfl)
    (show colIndex csSchema.cols "customer_id" = some 0 from rfl)
    (by decide)

end DataBackup
